import Mathlib

/-!
Verification development for the photobooth controller (`photobooth.py`).

The file shallowly embeds the parts of the program that the specified
properties are about:

* the per-shot capture retry loop of `Photobooth.take_picture`,
* the top-level exception containment of `Photobooth.run` /
  `Photobooth.handle_exception`,
* the 2x2 composite geometry of `Photobooth.assemble_pictures`,
* the filename sequencing of `PictureList`,
* the preview-countdown pacing of `Photobooth.show_counter`,
* the post-capture pad sleep and the session-level lamp / event-queue
  handling of `Photobooth.take_picture` and `Photobooth.clear_event_queue`.

Wall-clock times are modelled as rationals (the properties at stake are
order-algebraic, not floating point).  Side effects (display calls, sleeps,
GPIO writes, camera calls) are modelled as an explicit trace of actions.
-/

/-! ### Configuration constants (photobooth.py, configuration section) -/

/-- `image_size = (2352, 1568)`: maximum size of the assembled image. -/
def image_size : ℕ × ℕ := (2352, 1568)

/-- `pose_time = 3`: waiting time in seconds for posing. -/
def pose_time : ℕ := 3

/-- `display_time = 10`: display time for the assembled picture. -/
def display_time : ℚ := 10

/-! ### Camera errors and capture attempt outcomes -/

/-- `CameraException` from `camera.py` as used by `photobooth.py`: carries a
message and a recoverability flag (`CameraException(msg, recoverable)`). -/
structure CameraException where
  message : String
  recoverable : Bool
deriving DecidableEq

/-- Outcome of one `self.camera.take_picture(...)` call: either it returns a
filename (success) or it raises a `CameraException`. -/
inductive AttemptOutcome where
  | success
  | failure (message : String) (recoverable : Bool)
deriving DecidableEq

/-! ### Side-effect trace -/

/-- One observable side effect performed by the controller. -/
inductive Effect where
  | setLamp (level : ℕ)
  | clear
  | showMessage (msg : String)
  | showPicture
  | apply
  | sleepSec (secs : ℚ)
  | captureAttempt (shot : ℕ) (attempt : ℕ)
  | showCounter (seconds : ℕ)
  | assemble
  | clearQueue
deriving DecidableEq

/-- Whether an effect is a camera capture attempt. -/
def isCapture : Effect → Bool
  | .captureAttempt _ _ => true
  | _ => false

/-- Number of camera capture attempts recorded in a trace. -/
def countAttempts (l : List Effect) : ℕ :=
  l.countP isCapture

/-! ### Pad sleep (photobooth.py lines 426-429)

```
toc = time() - tic
if toc < 1.0:
    sleep(1.0 - toc)
```
-/

/-- The pad sleep performed after a capture attempt whose body did not raise:
`some d` means `sleep(d)` is executed, `none` means no sleep call happens. -/
def padSleep (toc : ℚ) : Option ℚ :=
  if toc < 1 then some (1 - toc) else none

/-- Trace fragment of the pad-sleep code. -/
def padActions (toc : ℚ) : List Effect :=
  match padSleep toc with
  | some d => [.sleepSec d]
  | none => []

/-! ### Per-shot capture retry loop (photobooth.py lines 398-429)

```
remaining_attempts = 3
while remaining_attempts > 0:
    remaining_attempts = remaining_attempts - 1
    self.display.clear((255,230,200))
    self.display.show_message("SMILE!\nPhoto " + str(x+1) + " of 4")
    self.display.apply()
    tic = time()
    try:
        filenames[x] = self.camera.take_picture(...)
        remaining_attempts = 0
    except CameraException as e:
        if e.recoverable:
            if remaining_attempts > 0:
                self.display.clear()
                self.display.show_message(e.message)
                self.display.apply()
                sleep(5)
            else:
                raise CameraException("Giving up! Please start over!", False)
        else:
           raise e
    toc = time() - tic
    if toc < 1.0:
        sleep(1.0 - toc)
```

`out a` is the outcome of the camera call on attempt number `a` (0-based),
`toc a` is the measured elapsed time of attempt `a`.  The first `ℕ` argument
of the recursion is the value of `remaining_attempts` at the loop head.
On success the code sets `remaining_attempts = 0`, runs the pad-sleep tail
and the loop guard then exits the loop; on a handled recoverable failure the
5-second error display and the pad-sleep tail run and the loop continues;
on an unrecoverable failure or an exhausted budget the raised exception
propagates (the pad-sleep tail is skipped by the exception).
-/

def shotLoop (out : ℕ → AttemptOutcome) (toc : ℕ → ℚ) (x : ℕ) :
    ℕ → ℕ → List Effect × Except CameraException Unit
  | 0, _ => ([], .ok ())
  | r + 1, attempt =>
    let pre : List Effect :=
      [.clear, .showMessage ("SMILE!\nPhoto " ++ toString (x + 1) ++ " of 4"), .apply,
       .captureAttempt x attempt]
    match out attempt with
    | .success => (pre ++ padActions (toc attempt), .ok ())
    | .failure msg true =>
      if 0 < r then
        let rest := shotLoop out toc x r (attempt + 1)
        (pre ++ [.clear, .showMessage msg, .apply, .sleepSec 5]
           ++ padActions (toc attempt) ++ rest.1,
         rest.2)
      else
        (pre, .error ⟨"Giving up! Please start over!", false⟩)
    | .failure msg false => (pre, .error ⟨msg, false⟩)

/-- Test scenario: recoverable failures on attempts 1 and 2, success after. -/
def outRRS (m0 m1 : String) : ℕ → AttemptOutcome
  | 0 => .failure m0 true
  | 1 => .failure m1 true
  | _ => .success

/-- Test scenario: recoverable failures on every attempt. -/
def outRRR (m0 m1 m2 : String) : ℕ → AttemptOutcome
  | 0 => .failure m0 true
  | 1 => .failure m1 true
  | _ => .failure m2 true

/-- Test scenario: a non-recoverable failure on every attempt. -/
def outFatal (m : String) : ℕ → AttemptOutcome :=
  fun _ => .failure m false

/-- Test scenario: success on every attempt. -/
def outOK : ℕ → AttemptOutcome :=
  fun _ => .success

/-- Test scenario: a recoverable failure on attempt 1, then a
non-recoverable failure on attempt 2. -/
def outRF (m0 m1 : String) : ℕ → AttemptOutcome
  | 0 => .failure m0 true
  | _ => .failure m1 false

/-! ### The capture session (photobooth.py lines 377-449, `take_picture`) -/

/-- The `for x in range(4)` loop over shots: each shot runs `show_counter`
then the 3-attempt retry loop; an exception raised by a shot aborts the
remaining shots. -/
def sessionShots (out : ℕ → ℕ → AttemptOutcome) (toc : ℕ → ℕ → ℚ) :
    List ℕ → List Effect × Except CameraException Unit
  | [] => ([], .ok ())
  | x :: xs =>
    let shot := shotLoop (out x) (toc x) x 3 0
    match shot.2 with
    | .ok _ =>
      let rest := sessionShots out toc xs
      (.showCounter pose_time :: (shot.1 ++ rest.1), rest.2)
    | .error e => (.showCounter pose_time :: shot.1, .error e)

/-- `Photobooth.take_picture`: lamp off, pose message, 2s sleep, four shots,
"Please wait!", assembly, composite display, lamp on, queue drain.  An
exception raised during the shots propagates before the exit actions run. -/
def takePicture (out : ℕ → ℕ → AttemptOutcome) (toc : ℕ → ℕ → ℚ) :
    List Effect × Except CameraException Unit :=
  let entry : List Effect :=
    [.setLamp 0, .clear, .showMessage ("POSE!\n\nFour pictures..."), .apply, .sleepSec 2]
  let shots := sessionShots out toc [0, 1, 2, 3]
  match shots.2 with
  | .ok _ =>
    (entry ++ shots.1
       ++ [.clear, .showMessage ("Please wait!"), .apply, .assemble,
           .clear, .showPicture, .apply, .sleepSec display_time, .setLamp 1, .clearQueue],
     .ok ())
  | .error e => (entry ++ shots.1, .error e)

/-- `Photobooth.clear_event_queue`: pop events while any remain.  The queue
is modelled as the list of pending events (`check_for_event` pops the head
and reports whether one was present). -/
def clearEventQueue {α : Type} : List α → List α
  | [] => []
  | _ :: rest => clearEventQueue rest

/-! ### Top-level loop exception containment (photobooth.py lines 190-210, 260-266)

```
def run(self):
    while True:
        try:
            self.gpio.set_output(self.lamp_channel, 1)
            ...idle loop / sessions...
        except CameraException as e:
            self.handle_exception(e.message)
        except (KeyboardInterrupt, SystemExit):
            raise
        except Exception as e:
            print('SERIOUS ERROR: ' + repr(e))
            self.handle_exception("SERIOUS ERROR!")

def handle_exception(self, msg):
    self.display.clear()
    print("Error: " + msg)
    self.display.show_message("ERROR:\n\n" + msg)
    self.display.apply()
    sleep(3)
```
-/

/-- Exceptions that can surface from the idle loop / a capture session:
a `CameraException`, a process-termination exception (`KeyboardInterrupt`
or `SystemExit`, the latter raised by the shutdown path via `exit(0)`),
or any other unclassified `Exception`. -/
inductive PyExc where
  | camera (e : CameraException)
  | keyboardInterrupt
  | systemExit
  | other (message : String)
deriving DecidableEq

/-- What one `run` iteration does with the exception that surfaced:
either the loop resumes (after showing `shown` on screen and sleeping
`sleepSecs` seconds) or the exception is re-raised. -/
inductive LoopStep where
  | resume (shown : String) (sleepSecs : ℚ)
  | propagate (e : PyExc)
deriving DecidableEq

/-- `Photobooth.handle_exception msg`: the message put on screen and the
duration of the sleep that follows. -/
def handle_exception (msg : String) : String × ℚ :=
  ("ERROR:\n\n" ++ msg, 3)

/-- The `except` chain of `Photobooth.run` applied to the surfaced
exception. -/
def runCatch : PyExc → LoopStep
  | .camera e => .resume (handle_exception e.message).1 (handle_exception e.message).2
  | .keyboardInterrupt => .propagate .keyboardInterrupt
  | .systemExit => .propagate .systemExit
  | .other _ => .resume (handle_exception ("SERIOUS ERROR!")).1 (handle_exception ("SERIOUS ERROR!")).2

/-- Whether the exception is one of the shutdown / termination exceptions
(`KeyboardInterrupt`, `SystemExit`). -/
def isTermination : PyExc → Bool
  | .keyboardInterrupt => true
  | .systemExit => true
  | _ => false

/-! ### PictureList (photobooth.py lines 71-117)

```
class PictureList:
    def __init__(self, basename):
        self.basename = basename
        self.suffix = ".jpg"
        self.count_width = 5
        ...ensure directory exists...
        count_pattern = "[0-9]" * self.count_width
        pictures = glob(self.basename + count_pattern + self.suffix)
        if len(pictures) == 0:
            self.counter = 0
        else:
            pictures.sort()
            last_picture = pictures[-1]
            self.counter = int(last_picture[-(self.count_width+len(self.suffix)):-len(self.suffix)])

    def get(self, count):
        return self.basename + str(count).zfill(self.count_width) + self.suffix

    def get_last(self):
        return self.get(self.counter)

    def get_next(self):
        self.counter += 1
        return self.get(self.counter)
```

Every filename matched by the glob is `basename ++ d0 d1 d2 d3 d4 ++ ".jpg"`
with five decimal digit characters, i.e. it is determined by its numeric
value `n < 100000`; the matched set is modelled by the list of those values.
All matched names share the `basename` prefix and the `".jpg"` suffix and
their digit fields have equal length, so Python's lexicographic string sort
orders them exactly as the lexicographic order on the five-digit fields;
the sort is modelled on the digit fields (digit characters are represented
by their digit values, which is order-isomorphic to the code-point order
used by Python).  `int(...[-9:-4])` reads the value of the digit field back.
-/

/-- The five-character zero-padded digit field of `n < 100000`
(most significant digit first). -/
def dig5 (n : ℕ) : List ℕ :=
  [n / 10000 % 10, n / 1000 % 10, n / 100 % 10, n / 10 % 10, n % 10]

/-- `int(...)` applied to a digit field. -/
def digitsVal (ds : List ℕ) : ℕ :=
  ds.foldl (fun a d => a * 10 + d) 0

/-- `l[-1]` of a non-empty list (with a default for the empty list). -/
def lastOr {α : Type} (d : α) : List α → α
  | [] => d
  | [a] => a
  | _ :: b :: rest => lastOr d (b :: rest)

/-- `str(count).zfill(width)`: left-pad with `'0'` up to `width`. -/
def zfill (width : ℕ) (s : String) : String :=
  String.mk (List.replicate (width - s.length) '0') ++ s

/-- The state of a `PictureList` object. -/
structure PictureList where
  basename : String
  suffix : String
  count_width : ℕ
  counter : ℕ

/-- `PictureList.__init__`: `nums` is the list of numeric values of the
files matched by the glob (each `< 100000` since the pattern matches
exactly five digit characters). -/
def PictureList.init (basename : String) (nums : List ℕ) : PictureList :=
  { basename := basename
    suffix := ".jpg"
    count_width := 5
    counter :=
      if nums.isEmpty then 0
      else digitsVal (lastOr [] (List.insertionSort (· ≤ ·) (nums.map dig5))) }

/-- `PictureList.get`. -/
def PictureList.get (p : PictureList) (count : ℕ) : String :=
  p.basename ++ zfill p.count_width (Nat.repr count) ++ p.suffix

/-- `PictureList.get_last`. -/
def PictureList.get_last (p : PictureList) : String :=
  p.get p.counter

/-- `PictureList.get_next`: increments the counter, then formats it.
Returns the updated state together with the returned string. -/
def PictureList.get_next (p : PictureList) : PictureList × String :=
  let p' : PictureList := { p with counter := p.counter + 1 }
  (p', p'.get p'.counter)

/-- The three operations a caller can perform on a `PictureList` after
initialization, viewed as state transformers (`get` and `get_last` return
a string without assigning to any attribute). -/
inductive SeqOp where
  | get (count : ℕ)
  | getLast
  | getNext

/-- State transition of one operation. -/
def applyOp (p : PictureList) : SeqOp → PictureList
  | .get _ => p
  | .getLast => p
  | .getNext => { p with counter := p.counter + 1 }

/-- State after a sequence of operations. -/
def applyOps (p : PictureList) : List SeqOp → PictureList
  | [] => p
  | o :: os => applyOps (applyOp p o) os

/-! ### Composite assembly geometry (photobooth.py lines 269-346)

```
outer_border = 50
inner_border = 20
thumb_box = ( int( self.pic_size[0] / 2 ) ,
              int( self.pic_size[1] / 2 ) )
thumb_size = ( thumb_box[0] - outer_border - inner_border ,
               thumb_box[1] - outer_border - inner_border )
# Image 0
img = Image.open(input_filenames[0]); img.thumbnail(thumb_size)
offset = ( thumb_box[0] - inner_border - img.size[0] ,
           thumb_box[1] - inner_border - img.size[1] )
# Image 1
offset = ( thumb_box[0] + inner_border,
           thumb_box[1] - inner_border - img.size[1] )
# Image 2
offset = ( thumb_box[0] - inner_border - img.size[0] ,
           thumb_box[1] + inner_border )
# Image 3
offset = ( thumb_box[0] + inner_border ,
           thumb_box[1] + inner_border )
output_image.paste(img, offset)
```
-/

/-- `outer_border = 50`. -/
def outer_border : ℕ := 50

/-- `inner_border = 20`. -/
def inner_border : ℕ := 20

/-- `thumb_box`: one quadrant of the canvas. -/
def thumb_box (pic : ℕ × ℕ) : ℕ × ℕ :=
  (pic.1 / 2, pic.2 / 2)

/-- The local `thumb_size` of `assemble_pictures`: the quadrant box reduced
by the outer and inner borders. -/
def thumb_sizeOf (pic : ℕ × ℕ) : ℕ × ℕ :=
  ((thumb_box pic).1 - outer_border - inner_border,
   (thumb_box pic).2 - outer_border - inner_border)

/-- Modelled from the spec: `PIL.Image.thumbnail` (the PIL library is not
part of this repository).  Per the spec, the image is "independently
proportionally scaled so it fits within
`(quadrant_width - outer_border - inner_border, quadrant_height - outer_border - inner_border)`
while preserving aspect ratio (no upscaling beyond original pixel
dimensions — scale-down-only thumbnail semantics)": an image that already
fits is left unchanged; otherwise the binding dimension is set to the box
bound and the other is scaled proportionally (rounded down, at least one
pixel). -/
def thumbnailSize (img : ℕ × ℕ) (box : ℕ × ℕ) : ℕ × ℕ :=
  let w := img.1
  let h := img.2
  let tw := box.1
  let th := box.2
  if w ≤ tw ∧ h ≤ th then (w, h)
  else if th * w ≤ tw * h then (max (w * th / h) 1, th)
  else (tw, max (h * tw / w) 1)

/-- An axis-aligned pixel rectangle: origin `(x, y)`, extent `(w, h)`,
covering `[x, x + w) × [y, y + h)`. -/
structure Rect where
  x : ℕ
  y : ℕ
  w : ℕ
  h : ℕ
deriving DecidableEq

/-- The paste offset computed for quadrant `q` when the thumbnailed image
has size `sz`. -/
def pasteOffset (pic : ℕ × ℕ) (q : ℕ) (sz : ℕ × ℕ) : ℕ × ℕ :=
  let tb := thumb_box pic
  match q with
  | 0 => (tb.1 - inner_border - sz.1, tb.2 - inner_border - sz.2)
  | 1 => (tb.1 + inner_border, tb.2 - inner_border - sz.2)
  | 2 => (tb.1 - inner_border - sz.1, tb.2 + inner_border)
  | _ => (tb.1 + inner_border, tb.2 + inner_border)

/-- The rectangle covered by picture `q` in the assembled composite, where
`imgs q` is the original pixel size of input image `q`. -/
def assembleRect (pic : ℕ × ℕ) (imgs : Fin 4 → ℕ × ℕ) (q : Fin 4) : Rect :=
  let sz := thumbnailSize (imgs q) (thumb_sizeOf pic)
  let off := pasteOffset pic q.val sz
  ⟨off.1, off.2, sz.1, sz.2⟩

/-- Two rectangles are disjoint: they are separated on the x-axis or on
the y-axis. -/
def Rect.disjoint (r s : Rect) : Prop :=
  r.x + r.w ≤ s.x ∨ s.x + s.w ≤ r.x ∨ r.y + r.h ≤ s.y ∨ s.y + s.h ≤ r.y

/-- `r` lies inside the box `[x1, x2] × [y1, y2]`. -/
def Rect.inside (r : Rect) (x1 y1 x2 y2 : ℕ) : Prop :=
  x1 ≤ r.x ∧ r.x + r.w ≤ x2 ∧ y1 ≤ r.y ∧ r.y + r.h ≤ y2

/-- Quadrant `q` of the canvas shrunk by the configured borders
(`outer_border` on the sides facing the canvas edge, `inner_border` on the
sides facing the canvas center cross), as `(x1, y1, x2, y2)`. -/
def quadrantInnerBox (pic : ℕ × ℕ) (q : ℕ) : ℕ × ℕ × ℕ × ℕ :=
  let tb := thumb_box pic
  match q with
  | 0 => (outer_border, outer_border, tb.1 - inner_border, tb.2 - inner_border)
  | 1 => (tb.1 + inner_border, outer_border, pic.1 - outer_border, tb.2 - inner_border)
  | 2 => (outer_border, tb.2 + inner_border, tb.1 - inner_border, pic.2 - outer_border)
  | _ => (tb.1 + inner_border, tb.2 + inner_border, pic.1 - outer_border, pic.2 - outer_border)

/-! ### Preview-countdown pacing (photobooth.py lines 348-369)

```
tic = time()
toc = time() - tic
while toc < seconds:
    ...display preview and remaining seconds...
    # Limit progress to 1 "second" per preview (e.g., too slow on Raspi 1)
    toc = min(toc + 1, time() - tic)
```

`e k` is the value of `time() - tic` read by the `k`-th evaluation of that
expression (`e 0` for the initialization of `toc`, `e (k+1)` for the update
at the end of iteration `k`); `tocSeq e k` is the value of `toc` tested by
the loop guard before iteration `k`.
-/

/-- The sequence of values taken by `toc` in the preview countdown loop. -/
def tocSeq (e : ℕ → ℚ) : ℕ → ℚ
  | 0 => e 0
  | k + 1 => min (tocSeq e k + 1) (e (k + 1))

/-! ## Helper lemmas -/

/-- The pad-sleep trace fragment contains no capture attempt. -/
lemma countP_padActions (t : ℚ) : List.countP isCapture (padActions t) = 0 := by
  unfold padActions
  cases padSleep t <;> simp [isCapture]

/-- The pad-sleep trace fragment contains no capture attempt. -/
lemma countAttempts_padActions (t : ℚ) : countAttempts (padActions t) = 0 :=
  countP_padActions t

/-- `List.countP` distributes over append (specialized). -/
lemma countAttempts_append (l1 l2 : List Effect) :
    countAttempts (l1 ++ l2) = countAttempts l1 + countAttempts l2 := by
  simp [countAttempts, List.countP_append]

/-- The "SMILE" block of one attempt records exactly one capture attempt. -/
lemma countAttempts_smile (s : String) (x a : ℕ) :
    countAttempts [.clear, .showMessage s, .apply, .captureAttempt x a] = 1 := by
  simp [countAttempts, List.countP_cons, isCapture]

/-- The recoverable-error display block records no capture attempt. -/
lemma countAttempts_retryMsg (s : String) :
    countAttempts [.clear, .showMessage s, .apply, .sleepSec 5] = 0 := by
  simp [countAttempts, List.countP_cons, isCapture]

/-- The retry loop makes at most `r` capture attempts when entered with
`remaining_attempts = r`. -/
lemma countAttempts_shotLoop_le (out : ℕ → AttemptOutcome) (toc : ℕ → ℚ) (x : ℕ) :
    ∀ r a, countAttempts (shotLoop out toc x r a).1 ≤ r := by
  intro r
  induction r with
  | zero => intro a; simp [shotLoop, countAttempts]
  | succ r ih =>
    intro a
    simp only [shotLoop]
    cases hout : out a with
    | success =>
      simp [countAttempts, List.countP_cons, List.countP_append, isCapture, countP_padActions]
    | failure msg rec =>
      cases rec with
      | true =>
        by_cases hr : 0 < r
        · have hih := ih (a + 1)
          simp only [countAttempts] at hih
          simp only [if_pos hr]
          simp [countAttempts, List.countP_cons, List.countP_append, isCapture,
            countP_padActions]
          omega
        · simp only [if_neg hr]
          simp [countAttempts, List.countP_cons, isCapture]
      | false =>
        simp [countAttempts, List.countP_cons, isCapture]

/-- `digitsVal` reads the value of the digit field back. -/
lemma digitsVal_dig5 {n : ℕ} (hn : n < 100000) : digitsVal (dig5 n) = n := by
  simp only [dig5, digitsVal, List.foldl]
  omega

/-- Fixed-width zero-padded decimal digit fields compare lexicographically
exactly as their values: strict monotonicity. -/
lemma dig5_lt_of_lt {n m : ℕ} (hn : n < 100000) (hm : m < 100000) (h : n < m) :
    dig5 n < dig5 m := by
  unfold dig5
  rcases Nat.lt_trichotomy (n / 10000 % 10) (m / 10000 % 10) with h0 | h0 | h0
  · exact List.Lex.rel h0
  · rw [h0]
    rcases Nat.lt_trichotomy (n / 1000 % 10) (m / 1000 % 10) with h1 | h1 | h1
    · exact List.Lex.cons (List.Lex.rel h1)
    · rw [h1]
      rcases Nat.lt_trichotomy (n / 100 % 10) (m / 100 % 10) with h2 | h2 | h2
      · exact List.Lex.cons (List.Lex.cons (List.Lex.rel h2))
      · rw [h2]
        rcases Nat.lt_trichotomy (n / 10 % 10) (m / 10 % 10) with h3 | h3 | h3
        · exact List.Lex.cons (List.Lex.cons (List.Lex.cons (List.Lex.rel h3)))
        · rw [h3]
          have h4 : n % 10 < m % 10 := by omega
          exact List.Lex.cons (List.Lex.cons (List.Lex.cons (List.Lex.cons (List.Lex.rel h4))))
        · omega
      · omega
    · omega
  · omega

/-- Comparison direction used to read the maximum back off the sort. -/
lemma le_of_dig5_le {n m : ℕ} (hn : n < 100000) (hm : m < 100000)
    (h : dig5 n ≤ dig5 m) : n ≤ m := by
  by_contra hc
  exact absurd h (not_le.mpr (dig5_lt_of_lt hm hn (by omega)))

/-- `lastOr` of a non-empty list is an element of it. -/
lemma lastOr_mem {α : Type} (d : α) : ∀ (l : List α), l ≠ [] → lastOr d l ∈ l
  | [], h => absurd rfl h
  | [a], _ => by simp [lastOr]
  | a :: b :: rest, _ => by
    have := lastOr_mem d (b :: rest) (by simp)
    simp only [lastOr]
    exact List.mem_cons_of_mem a this

/-- In a `≤`-sorted list the last element is an upper bound. -/
lemma sorted_le_lastOr {α : Type} [LinearOrder α] (d : α) :
    ∀ (l : List α), l.Sorted (· ≤ ·) → ∀ x ∈ l, x ≤ lastOr d l
  | [], _, x, hx => absurd hx (by simp)
  | [a], _, x, hx => by
    simp only [List.mem_singleton] at hx
    subst hx; exact le_refl _
  | a :: b :: rest, hs, x, hx => by
    rw [List.sorted_cons] at hs
    simp only [List.mem_cons] at hx
    have hrec := sorted_le_lastOr d (b :: rest) hs.2
    simp only [lastOr]
    rcases hx with rfl | hx
    · exact le_trans (hs.1 b (by simp)) (hrec b (by simp))
    · exact hrec x (by simpa using hx)

/-- Members bound `foldr max 0` from below. -/
lemma le_foldr_max {n : ℕ} : ∀ {nums : List ℕ}, n ∈ nums → n ≤ nums.foldr max 0
  | [], h => absurd h (by simp)
  | m :: rest, h => by
    simp only [List.mem_cons] at h
    simp only [List.foldr]
    rcases h with rfl | h
    · exact le_max_left _ _
    · exact le_trans (le_foldr_max h) (le_max_right _ _)

/-- An upper bound of all members bounds `foldr max 0`. -/
lemma foldr_max_le {m : ℕ} : ∀ {nums : List ℕ}, (∀ n ∈ nums, n ≤ m) → nums.foldr max 0 ≤ m
  | [], _ => Nat.zero_le m
  | k :: rest, h => by
    simp only [List.foldr]
    exact max_le (h k (by simp)) (foldr_max_le (fun n hn => h n (List.mem_cons_of_mem k hn)))

/-- Sorting the digit fields and reading the last one yields the maximal
numeric value: the `pictures.sort(); pictures[-1]` step of
`PictureList.__init__`. -/
lemma initCounter_eq_max (nums : List ℕ) (h : ∀ n ∈ nums, n < 100000) (hne : nums ≠ []) :
    digitsVal (lastOr [] (List.insertionSort (· ≤ ·) (nums.map dig5))) = nums.foldr max 0 := by
  set s := List.insertionSort (· ≤ ·) (nums.map dig5) with hs
  have hperm : s.Perm (nums.map dig5) := List.perm_insertionSort _ _
  have hsort : s.Sorted (· ≤ ·) := List.sorted_insertionSort _ _
  have hsne : s ≠ [] := by
    intro h0
    rw [h0] at hperm
    exact hne (List.map_eq_nil_iff.mp (hperm.symm.eq_nil))
  have hlast_mem : lastOr [] s ∈ s := lastOr_mem _ _ hsne
  obtain ⟨n0, hn0mem, hn0eq⟩ := List.mem_map.mp (hperm.mem_iff.mp hlast_mem)
  have hub : ∀ n ∈ nums, n ≤ n0 := by
    intro n hn
    have hmem : dig5 n ∈ s := hperm.mem_iff.mpr (List.mem_map.mpr ⟨n, hn, rfl⟩)
    have hle : dig5 n ≤ lastOr [] s := sorted_le_lastOr _ s hsort _ hmem
    rw [← hn0eq] at hle
    exact le_of_dig5_le (h n hn) (h n0 hn0mem) hle
  rw [← hn0eq, digitsVal_dig5 (h n0 hn0mem)]
  exact le_antisymm (le_foldr_max hn0mem) (foldr_max_le hub)

/-- `a < (a / b + 1) * b` for positive `b`. -/
lemma lt_div_succ_mul (a b : ℕ) (hb : 0 < b) : a < (a / b + 1) * b := by
  have h1 := Nat.div_add_mod a b
  have h2 := Nat.mod_lt a hb
  calc a = b * (a / b) + a % b := h1.symm
    _ < b * (a / b) + b := by omega
    _ = (a / b + 1) * b := by ring

/-- `a ≤ c * b → a / b ≤ c` for positive `b`. -/
lemma div_le_of_le_mul' {a b c : ℕ} (hb : 0 < b) (h : a ≤ c * b) : a / b ≤ c := by
  have hd := Nat.div_le_div_right (c := b) h
  rwa [Nat.mul_div_cancel c hb] at hd

/-- The reduced quadrant box of the configured canvas. -/
lemma thumb_sizeOf_image : thumb_sizeOf image_size = (1106, 714) := rfl

/-- The quadrant box of the configured canvas. -/
lemma thumb_box_image : thumb_box image_size = (1176, 784) := rfl

/-- A thumbnail never exceeds the box it is fitted into. -/
lemma thumbnailSize_box_bounds (img : ℕ × ℕ) :
    (thumbnailSize img (1106, 714)).1 ≤ 1106 ∧ (thumbnailSize img (1106, 714)).2 ≤ 714 := by
  obtain ⟨w, h⟩ := img
  simp only [thumbnailSize]
  split_ifs with h1 h2
  · exact ⟨h1.1, h1.2⟩
  · simp only [not_and_or, not_le] at h1
    have hh : 714 < h := by omega
    constructor
    · have hd : w * 714 / h ≤ 1106 := div_le_of_le_mul' (by omega) (by omega)
      simp only [max_le_iff]
      omega
    · exact le_refl _
  · simp only [not_and_or, not_le] at h1
    have hw : 1106 < w := by omega
    constructor
    · exact le_refl _
    · have hd : h * 1106 / w ≤ 714 := div_le_of_le_mul' (by omega) (by omega)
      simp only [max_le_iff]
      omega

/-- A thumbnail never exceeds the original image: scale-down only. -/
lemma thumbnailSize_le_orig (img : ℕ × ℕ) (hw : 1 ≤ img.1) (hh : 1 ≤ img.2) :
    (thumbnailSize img (1106, 714)).1 ≤ img.1
    ∧ (thumbnailSize img (1106, 714)).2 ≤ img.2 := by
  obtain ⟨w, h⟩ := img
  simp only at hw hh
  simp only [thumbnailSize]
  split_ifs with h1 h2
  · exact ⟨le_refl _, le_refl _⟩
  · simp only [not_and_or, not_le] at h1
    have hhgt : 714 < h := by omega
    constructor
    · have hd : w * 714 / h ≤ w := div_le_of_le_mul' (by omega) (by nlinarith)
      simp only [max_le_iff]
      omega
    · omega
  · simp only [not_and_or, not_le] at h1
    have hwgt : 1106 < w := by omega
    constructor
    · omega
    · have hd : h * 1106 / w ≤ h := div_le_of_le_mul' (by omega) (by nlinarith)
      simp only [max_le_iff]
      omega

/-- Aspect ratio is preserved up to the one-pixel rounding of the scaled
dimension: the cross products of the thumbnail size and the original size
agree within one original row / column. -/
lemma thumbnailSize_aspect (img : ℕ × ℕ)
    (ha : img.2 ≤ 714 * img.1) (hb : img.1 ≤ 1106 * img.2) :
    (thumbnailSize img (1106, 714)).1 * img.2
      ≤ img.1 * (thumbnailSize img (1106, 714)).2 + img.1
    ∧ img.1 * (thumbnailSize img (1106, 714)).2
      ≤ (thumbnailSize img (1106, 714)).1 * img.2 + img.2 := by
  obtain ⟨w, h⟩ := img
  simp only at ha hb
  simp only [thumbnailSize]
  split_ifs with h1 h2
  · dsimp only
    omega
  · simp only [not_and_or, not_le] at h1
    have hhgt : 714 < h := by omega
    have hmax : max (w * 714 / h) 1 = w * 714 / h := by
      have h1d : 1 ≤ w * 714 / h := (Nat.one_le_div_iff (by omega)).mpr (by omega)
      omega
    dsimp only
    rw [hmax]
    constructor
    · calc w * 714 / h * h ≤ w * 714 := Nat.div_mul_le_self _ _
        _ ≤ w * 714 + w := by omega
    · have hlt := lt_div_succ_mul (w * 714) h (by omega)
      calc w * 714 ≤ (w * 714 / h + 1) * h := le_of_lt hlt
        _ = w * 714 / h * h + h := by ring
  · simp only [not_and_or, not_le] at h1
    have hwgt : 1106 < w := by omega
    have hmax : max (h * 1106 / w) 1 = h * 1106 / w := by
      have h1d : 1 ≤ h * 1106 / w := (Nat.one_le_div_iff (by omega)).mpr (by omega)
      omega
    dsimp only
    rw [hmax]
    constructor
    · have hlt := lt_div_succ_mul (h * 1106) w (by omega)
      calc 1106 * h = h * 1106 := by ring
        _ ≤ (h * 1106 / w + 1) * w := le_of_lt hlt
        _ = w * (h * 1106 / w) + w := by ring
    · calc w * (h * 1106 / w) = h * 1106 / w * w := by ring
        _ ≤ h * 1106 := Nat.div_mul_le_self _ _
        _ ≤ 1106 * h + h := by omega

/-! ## Claim theorems -/

/-- C1: for every shot, the capture is attempted at most 3 times; three
recoverable failures escalate to the fatal non-recoverable
"Giving up! Please start over!" error; a non-recoverable failure propagates
the original error at once, without any retry (also when preceded by a
recoverable failure); a success on attempt 3 ends the retry loop with no
escalation, each retry being preceded by a 5-second display of the
recoverable error message, and the session then proceeds through the
remaining shots. -/
theorem take_picture_retry_policy (out : ℕ → AttemptOutcome) (toc : ℕ → ℚ)
    (toc4 : ℕ → ℕ → ℚ) (x : ℕ) (m0 m1 m2 : String) :
    countAttempts (shotLoop out toc x 3 0).1 ≤ 3
    ∧ (shotLoop (outRRR m0 m1 m2) toc x 3 0).2
        = .error ⟨"Giving up! Please start over!", false⟩
    ∧ countAttempts (shotLoop (outRRR m0 m1 m2) toc x 3 0).1 = 3
    ∧ (shotLoop (outFatal m0) toc x 3 0).2 = .error ⟨m0, false⟩
    ∧ countAttempts (shotLoop (outFatal m0) toc x 3 0).1 = 1
    ∧ (shotLoop (outRF m0 m1) toc x 3 0).2 = .error ⟨m1, false⟩
    ∧ countAttempts (shotLoop (outRF m0 m1) toc x 3 0).1 = 2
    ∧ (shotLoop (outRRS m0 m1) toc x 3 0).2 = .ok ()
    ∧ countAttempts (shotLoop (outRRS m0 m1) toc x 3 0).1 = 3
    ∧ (shotLoop (outRRS m0 m1) toc x 3 0).1
        = .clear :: .showMessage ("SMILE!\nPhoto " ++ toString (x + 1) ++ " of 4")
            :: .apply :: .captureAttempt x 0
            :: .clear :: .showMessage m0 :: .apply :: .sleepSec 5
            :: (padActions (toc 0)
              ++ (.clear :: .showMessage ("SMILE!\nPhoto " ++ toString (x + 1) ++ " of 4")
                    :: .apply :: .captureAttempt x 1
                    :: .clear :: .showMessage m1 :: .apply :: .sleepSec 5
                    :: (padActions (toc 1)
                      ++ (.clear
                          :: .showMessage ("SMILE!\nPhoto " ++ toString (x + 1) ++ " of 4")
                          :: .apply :: .captureAttempt x 2 :: padActions (toc 2)))))
    ∧ (sessionShots (fun i => if i = 0 then outRRS m0 m1 else outOK) toc4 [0, 1, 2, 3]).2
        = .ok () := by
  refine ⟨countAttempts_shotLoop_le out toc x 3 0, rfl, ?_, rfl, ?_, rfl, ?_, rfl, ?_, rfl, rfl⟩
  all_goals
    simp [shotLoop, outRRR, outFatal, outRF, outRRS, countAttempts, List.countP_cons,
      List.countP_append, isCapture, countP_padActions]

/-- C2: every camera error and every unclassified exception surfacing in the
top-level loop is caught and handled by a 3-second on-screen error message
after which the loop resumes; exactly the termination exceptions
(`KeyboardInterrupt`, `SystemExit`) are re-raised. -/
theorem run_exception_containment (e : CameraException) (msg : String) (exc : PyExc) :
    runCatch (.camera e) = .resume ("ERROR:\n\n" ++ e.message) 3
    ∧ runCatch (.other msg) = .resume ("ERROR:\n\nSERIOUS ERROR!") 3
    ∧ runCatch .keyboardInterrupt = .propagate .keyboardInterrupt
    ∧ runCatch .systemExit = .propagate .systemExit
    ∧ (match runCatch exc, isTermination exc with
       | .resume _ d, b => d = 3 ∧ b = false
       | .propagate e', b => e' = exc ∧ b = true) := by
  refine ⟨rfl, rfl, rfl, rfl, ?_⟩
  cases exc <;> exact ⟨rfl, rfl⟩

/-- C6: `get` and `get_last` leave the counter unchanged, `get_next` is the
only mutation and increases the counter by exactly 1, and across any
sequence of operations the counter never decreases. -/
theorem sequencer_counter_monotone (p : PictureList) (c : ℕ) (ops : List SeqOp) :
    (applyOp p (.get c)).counter = p.counter
    ∧ (applyOp p .getLast).counter = p.counter
    ∧ (applyOp p .getNext).counter = p.counter + 1
    ∧ p.counter ≤ (applyOps p ops).counter := by
  refine ⟨rfl, rfl, rfl, ?_⟩
  induction ops generalizing p with
  | nil => exact le_refl _
  | cons o os ih =>
    have h1 : p.counter ≤ (applyOp p o).counter := by
      cases o
      all_goals simp [applyOp]
    exact le_trans h1 (ih (applyOp p o))

/-- C7: in the preview countdown loop the logical progress `toc` follows
`toc' = min (toc + 1) elapsed`, advances by at most 1 per iteration, never
exceeds the wall-clock elapsed time read in the same iteration, and the
loop guard can only fail (terminating the loop) once the wall-clock elapsed
time is at least the configured number of seconds. -/
theorem show_counter_pacing (e : ℕ → ℚ) (k seconds : ℕ)
    (hk : (seconds : ℚ) ≤ tocSeq e (k + 1)) :
    tocSeq e (k + 1) = min (tocSeq e k + 1) (e (k + 1))
    ∧ tocSeq e (k + 1) ≤ tocSeq e k + 1
    ∧ (∀ j, tocSeq e j ≤ e j)
    ∧ (seconds : ℚ) ≤ e (k + 1) := by
  have hj : ∀ j, tocSeq e j ≤ e j := by
    intro j
    cases j with
    | zero => exact le_refl _
    | succ j => exact min_le_right _ _
  exact ⟨rfl, min_le_left _ _, hj, le_trans hk (hj (k + 1))⟩

/-- C7 witness: a run whose wall clock advances one second per iteration. -/
theorem show_counter_pacing_witness :
    ((1 : ℚ) ≤ tocSeq (fun k => (k : ℚ)) 1)
    ∧ (1 : ℚ) ≤ (fun k => (k : ℚ)) 1 := by
  have h1 : (1 : ℚ) ≤ tocSeq (fun k => (k : ℚ)) 1 := by
    simp [tocSeq]
  exact ⟨h1, (show_counter_pacing (fun k => (k : ℚ)) 0 1 h1).2.2.2⟩

/-- C8: after a capture attempt whose measured elapsed time is under 1
second a pad sleep of exactly `1 - toc` seconds runs (so elapsed plus pad
is at least 1 second), no pad sleep runs when the attempt took at least 1
second, and in the retry loop the pad follows the successful capture
attempt. -/
theorem capture_pad_timing (toc : ℚ) :
    (toc < 1 → padSleep toc = some (1 - toc) ∧ toc + (1 - toc) = 1)
    ∧ (1 ≤ toc → padSleep toc = none ∧ padActions toc = [])
    ∧ (0 ≤ toc → (1 : ℚ) ≤ toc + (padSleep toc).getD 0)
    ∧ (∀ (tocF : ℕ → ℚ) (x : ℕ),
        (shotLoop outOK tocF x 3 0).1
          = [.clear, .showMessage ("SMILE!\nPhoto " ++ toString (x + 1) ++ " of 4"),
             .apply, .captureAttempt x 0] ++ padActions (tocF 0)) := by
  refine ⟨?_, ?_, ?_, fun tocF x => rfl⟩
  · intro h
    constructor
    · simp [padSleep, h]
    · ring
  · intro h
    constructor
    · simp [padSleep, not_lt.mpr h]
    · simp [padActions, padSleep, not_lt.mpr h]
  · intro h
    by_cases h1 : toc < 1
    · simp only [padSleep, if_pos h1, Option.getD_some]
      linarith
    · simp only [padSleep, if_neg h1, Option.getD_none]
      linarith [not_lt.mp h1]

/-- C8 witness: a 0.5-second capture is padded to exactly 1 second; a
2-second capture is not padded. -/
theorem capture_pad_timing_witness :
    ((1 : ℚ) / 2 < 1 ∧ padSleep (1 / 2) = some (1 - 1 / 2))
    ∧ ((1 : ℚ) ≤ 2 ∧ padSleep 2 = none) :=
  ⟨⟨by norm_num, ((capture_pad_timing (1 / 2)).1 (by norm_num)).1⟩,
   ⟨by norm_num, ((capture_pad_timing 2).2.1 (by norm_num)).1⟩⟩

/-- C10: `get_next` followed immediately by `get_last` returns the same
path that `get_next` returned. -/
theorem get_next_then_get_last (p : PictureList) :
    (p.get_next).1.get_last = (p.get_next).2 := rfl

/-- First component of the configured canvas size. -/
lemma image_size_fst : image_size.1 = 2352 := rfl

/-- Second component of the configured canvas size. -/
lemma image_size_snd : image_size.2 = 1568 := rfl

/-- Offset equation for quadrant 0. -/
lemma pasteOffset_zero (pic sz : ℕ × ℕ) :
    pasteOffset pic 0 sz
      = ((thumb_box pic).1 - inner_border - sz.1,
         (thumb_box pic).2 - inner_border - sz.2) := rfl

/-- Offset equation for quadrant 1. -/
lemma pasteOffset_one (pic sz : ℕ × ℕ) :
    pasteOffset pic 1 sz
      = ((thumb_box pic).1 + inner_border,
         (thumb_box pic).2 - inner_border - sz.2) := rfl

/-- Offset equation for quadrant 2. -/
lemma pasteOffset_two (pic sz : ℕ × ℕ) :
    pasteOffset pic 2 sz
      = ((thumb_box pic).1 - inner_border - sz.1,
         (thumb_box pic).2 + inner_border) := rfl

/-- Offset equation for quadrant 3. -/
lemma pasteOffset_three (pic sz : ℕ × ℕ) :
    pasteOffset pic 3 sz
      = ((thumb_box pic).1 + inner_border,
         (thumb_box pic).2 + inner_border) := rfl

/-- C3: on the fixed canvas `(2352, 1568)` with `outer_border 50` and
`inner_border 20`, the four placed thumbnails are pairwise disjoint, each
lies inside its own quadrant shrunk by the configured borders, each is
scaled down only (its dimensions never exceed the source image's), and
aspect ratio is preserved up to the one-pixel rounding of the scaled
dimension. -/
theorem assemble_geometry (imgs : Fin 4 → ℕ × ℕ)
    (hpos : ∀ q, 1 ≤ (imgs q).1 ∧ 1 ≤ (imgs q).2)
    (hasp : ∀ q, (imgs q).2 ≤ 714 * (imgs q).1 ∧ (imgs q).1 ≤ 1106 * (imgs q).2) :
    (∀ i j : Fin 4, i ≠ j →
        Rect.disjoint (assembleRect image_size imgs i) (assembleRect image_size imgs j))
    ∧ (∀ q : Fin 4,
        (assembleRect image_size imgs q).inside
          (quadrantInnerBox image_size q.val).1
          (quadrantInnerBox image_size q.val).2.1
          (quadrantInnerBox image_size q.val).2.2.1
          (quadrantInnerBox image_size q.val).2.2.2)
    ∧ (∀ q : Fin 4, (assembleRect image_size imgs q).w ≤ (imgs q).1
        ∧ (assembleRect image_size imgs q).h ≤ (imgs q).2)
    ∧ (∀ q : Fin 4,
        (assembleRect image_size imgs q).w * (imgs q).2
            ≤ (imgs q).1 * (assembleRect image_size imgs q).h + (imgs q).1
        ∧ (imgs q).1 * (assembleRect image_size imgs q).h
            ≤ (assembleRect image_size imgs q).w * (imgs q).2 + (imgs q).2) := by
  have hb : ∀ q : Fin 4, (thumbnailSize (imgs q) (1106, 714)).1 ≤ 1106
      ∧ (thumbnailSize (imgs q) (1106, 714)).2 ≤ 714 :=
    fun q => thumbnailSize_box_bounds (imgs q)
  refine ⟨?_, ?_, fun q => thumbnailSize_le_orig (imgs q) (hpos q).1 (hpos q).2,
    fun q => thumbnailSize_aspect (imgs q) (hasp q).1 (hasp q).2⟩
  · intro i j hij
    have hbi := hb i
    have hbj := hb j
    fin_cases i <;> fin_cases j <;>
      simp only [assembleRect, pasteOffset, thumb_sizeOf_image, thumb_box_image,
        Rect.disjoint, inner_border, outer_border, Fin.isValue] at hbi hbj ⊢ <;>
      omega
  · intro q
    have hbq := hb q
    fin_cases q <;>
      simp only [assembleRect, pasteOffset, quadrantInnerBox, thumb_sizeOf_image,
        thumb_box_image, Rect.inside, image_size_fst, image_size_snd, inner_border,
        outer_border, Fin.isValue] at hbq ⊢ <;>
      omega

/-- C3 witness: four camera-sized `4752x3168` sources satisfy the
hypotheses, and the placed thumbnails are pairwise disjoint. -/
theorem assemble_geometry_witness :
    ((1 : ℕ) ≤ 4752 ∧ (1 : ℕ) ≤ 3168
      ∧ (3168 : ℕ) ≤ 714 * 4752 ∧ (4752 : ℕ) ≤ 1106 * 3168)
    ∧ (∀ i j : Fin 4, i ≠ j →
        Rect.disjoint (assembleRect image_size (fun _ => (4752, 3168)) i)
          (assembleRect image_size (fun _ => (4752, 3168)) j)) := by
  refine ⟨by norm_num, ?_⟩
  exact (assemble_geometry (fun _ => (4752, 3168))
    (fun _ => ⟨by norm_num, by norm_num⟩) (fun _ => ⟨by norm_num, by norm_num⟩)).1

/-- C4 counterexample: with a `600x400` source (which fits the reduced
quadrant box unchanged), thumbnail 0's outer (left) edge sits at x = 556,
not at `outer_border = 50`: the claim that each thumbnail's outer edges are
exactly `outer_border` from the canvas edge is false. -/
theorem assemble_outer_border_counterexample :
    (assembleRect image_size (fun _ => (600, 400)) ⟨0, by norm_num⟩).x = 556
    ∧ ¬ ((assembleRect image_size (fun _ => (600, 400)) ⟨0, by norm_num⟩).x
          = outer_border) := by
  constructor
  · decide
  · decide

/-- C4 (amended): the placement offsets anchor quadrant 0's thumbnail at its
bottom-right corner, quadrant 1's at its bottom-left, quadrant 2's at its
top-right and quadrant 3's at its top-left, so each thumbnail's inner edges
are exactly `inner_border` from the canvas center cross; its outer edges are
at least `outer_border` from the canvas edge (with equality only when the
thumbnail fills the whole reduced quadrant box). -/
theorem assemble_anchoring (imgs : Fin 4 → ℕ × ℕ) (q : Fin 4) :
    (q.val = 0 →
      (assembleRect image_size imgs q).x + (assembleRect image_size imgs q).w
          = (thumb_box image_size).1 - inner_border
      ∧ (assembleRect image_size imgs q).y + (assembleRect image_size imgs q).h
          = (thumb_box image_size).2 - inner_border
      ∧ outer_border ≤ (assembleRect image_size imgs q).x
      ∧ outer_border ≤ (assembleRect image_size imgs q).y)
    ∧ (q.val = 1 →
      (assembleRect image_size imgs q).x = (thumb_box image_size).1 + inner_border
      ∧ (assembleRect image_size imgs q).y + (assembleRect image_size imgs q).h
          = (thumb_box image_size).2 - inner_border
      ∧ (assembleRect image_size imgs q).x + (assembleRect image_size imgs q).w
          ≤ image_size.1 - outer_border
      ∧ outer_border ≤ (assembleRect image_size imgs q).y)
    ∧ (q.val = 2 →
      (assembleRect image_size imgs q).x + (assembleRect image_size imgs q).w
          = (thumb_box image_size).1 - inner_border
      ∧ (assembleRect image_size imgs q).y = (thumb_box image_size).2 + inner_border
      ∧ outer_border ≤ (assembleRect image_size imgs q).x
      ∧ (assembleRect image_size imgs q).y + (assembleRect image_size imgs q).h
          ≤ image_size.2 - outer_border)
    ∧ (q.val = 3 →
      (assembleRect image_size imgs q).x = (thumb_box image_size).1 + inner_border
      ∧ (assembleRect image_size imgs q).y = (thumb_box image_size).2 + inner_border
      ∧ (assembleRect image_size imgs q).x + (assembleRect image_size imgs q).w
          ≤ image_size.1 - outer_border
      ∧ (assembleRect image_size imgs q).y + (assembleRect image_size imgs q).h
          ≤ image_size.2 - outer_border) := by
  have hbq : (thumbnailSize (imgs q) (1106, 714)).1 ≤ 1106
      ∧ (thumbnailSize (imgs q) (1106, 714)).2 ≤ 714 :=
    thumbnailSize_box_bounds (imgs q)
  refine ⟨?_, ?_, ?_, ?_⟩
  · intro hqv
    have hq : q = ⟨0, by norm_num⟩ := Fin.ext hqv
    subst hq
    simp only [assembleRect, pasteOffset, thumb_sizeOf_image, thumb_box_image,
      image_size_fst, image_size_snd, inner_border, outer_border] at hbq ⊢
    omega
  · intro hqv
    have hq : q = ⟨1, by norm_num⟩ := Fin.ext hqv
    subst hq
    simp only [assembleRect, pasteOffset_one, thumb_sizeOf_image, thumb_box_image,
      image_size_fst, image_size_snd, inner_border, outer_border, true_and,
      and_true] at hbq ⊢
    omega
  · intro hqv
    have hq : q = ⟨2, by norm_num⟩ := Fin.ext hqv
    subst hq
    simp only [assembleRect, pasteOffset_two, thumb_sizeOf_image, thumb_box_image,
      image_size_fst, image_size_snd, inner_border, outer_border, true_and,
      and_true] at hbq ⊢
    omega
  · intro hqv
    have hq : q = ⟨3, by norm_num⟩ := Fin.ext hqv
    subst hq
    simp only [assembleRect, pasteOffset_three, thumb_sizeOf_image, thumb_box_image,
      image_size_fst, image_size_snd, inner_border, outer_border, true_and,
      and_true] at hbq ⊢
    omega

/-- C4 witness: for four `600x400` sources, quadrant 0's thumbnail is
anchored with its right edge exactly `inner_border` left of the canvas
center cross. -/
theorem assemble_anchoring_witness :
    ((⟨0, by norm_num⟩ : Fin 4).val = 0)
    ∧ ((assembleRect image_size (fun _ => (600, 400)) ⟨0, by norm_num⟩).x
        + (assembleRect image_size (fun _ => (600, 400)) ⟨0, by norm_num⟩).w
      = (thumb_box image_size).1 - inner_border) :=
  ⟨rfl, ((assemble_anchoring (fun _ => (600, 400)) ⟨0, by norm_num⟩).1 rfl).1⟩

/-- C9: a capture session that completes turns the lamp off as its first
action (before the pose message), turns it back on at exit and then drains
the pending event queue, which afterwards holds no event. -/
theorem session_lamp_and_queue {α : Type} (out : ℕ → ℕ → AttemptOutcome)
    (toc : ℕ → ℕ → ℚ) (q : List α) (h : (takePicture out toc).2 = .ok ()) :
    (∃ rest, (takePicture out toc).1
      = .setLamp 0 :: .clear :: .showMessage ("POSE!\n\nFour pictures...")
          :: .apply :: .sleepSec 2 :: rest)
    ∧ (∃ pre, (takePicture out toc).1 = pre ++ [.setLamp 1, .clearQueue])
    ∧ clearEventQueue q = [] := by
  have hq : ∀ (l : List α), clearEventQueue l = [] := by
    intro l
    induction l with
    | nil => rfl
    | cons a l ih => simpa [clearEventQueue] using ih
  rcases hres : (sessionShots out toc [0, 1, 2, 3]).2 with eexc | uu
  · exfalso
    simp only [takePicture, hres] at h
    exact absurd h (by simp)
  · refine ⟨?_, ?_, hq q⟩
    · refine ⟨(sessionShots out toc [0, 1, 2, 3]).1
        ++ [.clear, .showMessage ("Please wait!"), .apply, .assemble,
            .clear, .showPicture, .apply, .sleepSec display_time, .setLamp 1, .clearQueue], ?_⟩
      simp only [takePicture, hres]
      simp [List.append_assoc]
    · refine ⟨[.setLamp 0, .clear, .showMessage ("POSE!\n\nFour pictures..."),
          .apply, .sleepSec 2]
        ++ (sessionShots out toc [0, 1, 2, 3]).1
        ++ [.clear, .showMessage ("Please wait!"), .apply, .assemble,
            .clear, .showPicture, .apply, .sleepSec display_time], ?_⟩
      simp only [takePicture, hres]
      simp [List.append_assoc]

/-- C9 witness: with every capture succeeding the session completes and a
queue of two pending events is drained to empty. -/
theorem session_lamp_and_queue_witness :
    ((takePicture (fun _ _ => .success) (fun _ _ => 2)).2 = .ok ())
    ∧ clearEventQueue ([3, 5] : List ℕ) = [] := by
  have h : (takePicture (fun _ _ => .success) (fun _ _ => 2)).2 = .ok () := rfl
  exact ⟨h,
    (session_lamp_and_queue (fun _ _ => .success) (fun _ _ => 2) ([3, 5] : List ℕ) h).2.2⟩

/-- Unfolded form of `get_next`'s returned path. -/
lemma get_next_eq (p : PictureList) :
    (p.get_next).2 = p.basename ++ zfill p.count_width (Nat.repr (p.counter + 1)) ++ p.suffix :=
  rfl

/-- C5: initialization sets the counter to the maximum numeric value among
the files matched by the `<basename><5 digits><suffix>` pattern (0 when none
matches), and `get_next` increments the counter and returns
`basename ++ <counter zero-padded to width 5> ++ suffix`; on a fresh
directory the first `get_next` returns the path numbered 00001, and with an
existing file numbered 00007 init sets the counter to 7 and `get_next`
returns the path numbered 00008. -/
theorem pictureList_init_next (b : String) (nums : List ℕ)
    (h : ∀ n ∈ nums, n < 100000) :
    (PictureList.init b nums).counter = nums.foldr max 0
    ∧ (∀ p : PictureList, (p.get_next).1.counter = p.counter + 1
        ∧ (p.get_next).2
            = p.basename ++ zfill p.count_width (Nat.repr (p.counter + 1)) ++ p.suffix)
    ∧ ((PictureList.init b []).get_next).2 = b ++ "00001" ++ ".jpg"
    ∧ (PictureList.init b [7]).counter = 7
    ∧ ((PictureList.init b [7]).get_next).2 = b ++ "00008" ++ ".jpg" := by
  have h7 : (PictureList.init b [7]).counter = 7 := by
    have hmax := initCounter_eq_max [7] (by intro n hn; simp at hn; omega) (by simp)
    simp only [PictureList.init, List.isEmpty_cons, if_false, Bool.false_eq_true]
    simpa using hmax
  refine ⟨?_, fun p => ⟨rfl, rfl⟩, ?_, h7, ?_⟩
  · rcases eq_or_ne nums [] with rfl | hne
    · rfl
    · have hie : nums.isEmpty = false := by
        simp [List.isEmpty_iff, hne]
      simp only [PictureList.init, hie, if_false, Bool.false_eq_true]
      exact initCounter_eq_max nums h hne
  · rw [get_next_eq]
    have hw : (PictureList.init b []).count_width = 5 := rfl
    have hc : (PictureList.init b []).counter + 1 = 1 := rfl
    rw [hw, hc]
    have hz : zfill 5 (Nat.repr 1) = "00001" := by decide
    rw [hz]
    rfl
  · rw [get_next_eq]
    have hw : (PictureList.init b [7]).count_width = 5 := rfl
    have hc : (PictureList.init b [7]).counter + 1 = 8 := by omega
    rw [hw, hc]
    have hz : zfill 5 (Nat.repr 8) = "00008" := by decide
    rw [hz]
    rfl

/-- C5 witness: for matched files numbered 3, 7 and 2 the counter is
initialized to 7. -/
theorem pictureList_init_next_witness :
    (∀ n ∈ ([3, 7, 2] : List ℕ), n < 100000)
    ∧ (PictureList.init ("d/p") [3, 7, 2]).counter = [3, 7, 2].foldr max 0 := by
  have hp : ∀ n ∈ ([3, 7, 2] : List ℕ), n < 100000 := by decide
  exact ⟨hp, (pictureList_init_next ("d/p") [3, 7, 2] hp).1⟩
